import Mathlib

/-!
Verification of the Bill_automation invoice core: the GST tax engine
(`utils/tax_calculator.py`), the state-name normalizer
(`utils/pdf_extractor.py`), and the amount-to-words renderer
(`utils/number_to_words.py`), shallowly embedded in Lean 4.

Python strings are modelled as Lean `String` (ASCII behaviour for case
mapping and whitespace), Python dicts (insertion ordered) as association
lists, Python floats as exact rationals, plus an explicit type carrying
the non-finite special values where the code's behaviour on them matters.
Python exceptions are modelled with `Except`.
-/

/-- Python `str.strip()`: drop whitespace from both ends. -/
def sStrip (s : String) : String :=
  ⟨((s.data.dropWhile Char.isWhitespace).reverse.dropWhile Char.isWhitespace).reverse⟩

/-- Python `str.lower()` (ASCII). -/
def sLower (s : String) : String := ⟨s.data.map Char.toLower⟩

/-- Python `str.upper()` (ASCII). -/
def sUpper (s : String) : String := ⟨s.data.map Char.toUpper⟩

/-- Python substring containment `needle in hay`.  The empty needle is
contained in every string, as in Python. -/
def strContains (hay needle : String) : Bool :=
  hay.data.tails.any (fun t => needle.data.isPrefixOf t)

/-- Python `round()` to an integer: round half to even (banker's rounding). -/
def pyRound (x : ℚ) : ℤ :=
  if x - ⌊x⌋ < 1/2 then ⌊x⌋
  else if 1/2 < x - ⌊x⌋ then ⌊x⌋ + 1
  else if ⌊x⌋ % 2 = 0 then ⌊x⌋ else ⌊x⌋ + 1

/-- Python `round(x, 2)`: round to 2 decimal places (half to even). -/
def round2 (x : ℚ) : ℚ := (pyRound (x * 100) : ℚ) / 100

/-- Python `int()` on a number: truncation toward zero. -/
def ratTrunc (q : ℚ) : ℤ := if 0 ≤ q then ⌊q⌋ else ⌈q⌉

/-- A Python exception, as far as the embedded code can raise one. -/
inductive PyExc where
  | attributeError
deriving DecidableEq

/-- The dict returned by `calculate_tax` in `utils/tax_calculator.py`. -/
structure TaxResult where
  tax_type : String
  cgst : ℚ
  sgst : ℚ
  igst : ℚ
  total_tax : ℚ
  total_after_tax : ℚ
deriving DecidableEq

/-- `calculate_tax` from `utils/tax_calculator.py`.  A `none` state string
models Python `None`, on which `.strip()` raises `AttributeError`; the
supplier string is accessed first, as in the source. -/
def calculate_tax : Option String → Option String → ℚ → Except PyExc TaxResult
  | none, _, _ => .error .attributeError
  | some _, none, _ => .error .attributeError
  | some supplier_state, some customer_state, subtotal =>
    let supplier_normalized := sLower (sStrip supplier_state)
    let customer_normalized := sLower (sStrip customer_state)
    if supplier_normalized = customer_normalized then
      let cgst := round2 (subtotal * (9/100))
      let sgst := round2 (subtotal * (9/100))
      let total_tax := cgst + sgst
      .ok ⟨"SGST", cgst, sgst, 0, total_tax, round2 (subtotal + total_tax)⟩
    else
      let igst := round2 (subtotal * (18/100))
      .ok ⟨"IGST", 0, 0, igst, igst, round2 (subtotal + igst)⟩

/-- A reference map: Python dict `{state_name: two_digit_code}` in
insertion order, modelled as an association list. -/
abbrev StateMap := List (String × String)

/-- The fixed abbreviation dict from `normalize_state_name` in
`utils/pdf_extractor.py`, in source order. -/
def abbreviations : List (String × String) :=
  [("UP", "Uttar Pradesh"), ("DL", "Delhi"), ("HR", "Haryana"),
   ("PB", "Punjab"), ("RJ", "Rajasthan"), ("MH", "Maharashtra"),
   ("GJ", "Gujarat"), ("KA", "Karnataka"), ("TN", "Tamil Nadu"),
   ("WB", "West Bengal"), ("MP", "Madhya Pradesh"), ("AP", "Andhra Pradesh"),
   ("TS", "Telangana"), ("KL", "Kerala"), ("BR", "Bihar"),
   ("JH", "Jharkhand"), ("OR", "Odisha"), ("OD", "Odisha"),
   ("CG", "Chhattisgarh"), ("UK", "Uttarakhand"), ("HP", "Himachal Pradesh"),
   ("JK", "Jammu and Kashmir"), ("GA", "Goa"), ("AS", "Assam"),
   ("CH", "Chandigarh"), ("SK", "Sikkim"), ("MN", "Manipur"),
   ("ML", "Meghalaya"), ("MZ", "Mizoram"), ("NL", "Nagaland"),
   ("TR", "Tripura"), ("AR", "Arunachal Pradesh"), ("PY", "Puducherry")]

/-- ASCII uppercase letter, as matched by `[A-Z]` in the source regex. -/
def isUpperAlpha (c : Char) : Bool := 'A' ≤ c && c ≤ 'Z'

/-- ASCII digit, as matched by `\d` in the source regex. -/
def isDigitCh (c : Char) : Bool := '0' ≤ c && c ≤ '9'

/-- The regex `^([A-Z]{2})-?(\d{2})$` of `normalize_state_name`: two
capital letters, an optional hyphen, and exactly two digits.  Returns the
two capture groups on a match. -/
def matchAbbrCode (s : String) : Option (String × String) :=
  match s.data with
  | [a, b, c, d] =>
    if isUpperAlpha a && isUpperAlpha b && isDigitCh c && isDigitCh d then
      some (⟨[a, b]⟩, ⟨[c, d]⟩)
    else none
  | [a, b, h, c, d] =>
    if isUpperAlpha a && isUpperAlpha b && h == '-' && isDigitCh c && isDigitCh d then
      some (⟨[a, b]⟩, ⟨[c, d]⟩)
    else none
  | _ => none

/-- The regex `^\d{2}$` of `normalize_state_name`: exactly two digits. -/
def isTwoDigits (s : String) : Bool :=
  match s.data with
  | [c, d] => isDigitCh c && isDigitCh d
  | _ => false

/-- The tail of `normalize_state_name` once the combined
abbreviation-plus-code pattern has failed to resolve: the bare
2-digit-code check, the abbreviation check, the exact case-insensitive
scan and the substring scan over the reference map, and the final
fallthrough. -/
def normAfterAbbrCode (s : String) (m : StateMap) : Option String × Option String :=
  if isTwoDigits s then
    match m.find? (fun p => p.2 == s) with
    | some p => (some p.1, some p.2)
    | none => (none, some s)
  else
    match abbreviations.lookup (sUpper s) with
    | some state_name => (some state_name, m.lookup state_name)
    | none =>
      match m.find? (fun p => sLower p.1 == sLower s) with
      | some p => (some p.1, some p.2)
      | none =>
        match m.find? (fun p => strContains (sLower p.1) (sLower s)) with
        | some p => (some p.1, some p.2)
        | none => (some s, none)

/-- `normalize_state_name` from `utils/pdf_extractor.py`.  `none` input
models Python `None`; the `if not state_input` guard also catches the
empty string.  The result is the `(state_name, state_code)` tuple, each
component `none` where the source returns `None`. -/
def normalize_state_name (state_input : Option String) (m : StateMap) :
    Option String × Option String :=
  match state_input with
  | none => (none, none)
  | some s0 =>
    if s0 = "" then (none, none)
    else
      let s := sStrip s0
      match matchAbbrCode (sUpper s) with
      | some (abbr, _sfx) =>
        match abbreviations.lookup abbr with
        | some state_name => (some state_name, m.lookup state_name)
        | none => normAfterAbbrCode s m
      | none => normAfterAbbrCode s m

/-- Rule 1 of the spec's resolution algorithm: combined
abbreviation-plus-code pattern whose two leading letters are a known
abbreviation. -/
def rule1 (s : String) (m : StateMap) : Option (Option String × Option String) :=
  match matchAbbrCode (sUpper s) with
  | some (abbr, _sfx) =>
    (abbreviations.lookup abbr).map (fun name => (some name, m.lookup name))
  | none => none

/-- Rule 2 of the spec's resolution algorithm: bare 2-digit code, found in
the map or passed through unresolved. -/
def rule2 (s : String) (m : StateMap) : Option (Option String × Option String) :=
  if isTwoDigits s then
    match m.find? (fun p => p.2 == s) with
    | some p => some (some p.1, some p.2)
    | none => some (none, some s)
  else none

/-- Rule 3 of the spec's resolution algorithm: known abbreviation. -/
def rule3 (s : String) (m : StateMap) : Option (Option String × Option String) :=
  (abbreviations.lookup (sUpper s)).map (fun name => (some name, m.lookup name))

/-- Rule 4 of the spec's resolution algorithm: exact case-insensitive name
match over the map. -/
def rule4 (s : String) (m : StateMap) : Option (Option String × Option String) :=
  (m.find? (fun p => sLower p.1 == sLower s)).map (fun p => (some p.1, some p.2))

/-- Rule 5 of the spec's resolution algorithm: first map name containing
the input as a substring, case-insensitively. -/
def rule5 (s : String) (m : StateMap) : Option (Option String × Option String) :=
  (m.find? (fun p => strContains (sLower p.1) (sLower s))).map
    (fun p => (some p.1, some p.2))

/-- The spec's resolution algorithm on a trimmed input: rules 1-5 in
strict priority order with first match winning, rule 6 as the default. -/
def resolve_spec (s : String) (m : StateMap) : Option String × Option String :=
  (rule1 s m <|> rule2 s m <|> rule3 s m <|> rule4 s m <|> rule5 s m).getD
    (some s, none)

/-- A concrete reference map used for the worked examples, listed in the
insertion order of its source configuration. -/
def demoMap : StateMap :=
  [("Delhi", "07"), ("Punjab", "03"), ("Uttar Pradesh", "09")]

/-- English cardinal words for 0 to 19, lowercase. -/
def onesWords : List String :=
  ["zero", "one", "two", "three", "four", "five", "six", "seven", "eight",
   "nine", "ten", "eleven", "twelve", "thirteen", "fourteen", "fifteen",
   "sixteen", "seventeen", "eighteen", "nineteen"]

/-- English words for the multiples of ten below one hundred, lowercase. -/
def tensWords : List String :=
  ["", "", "twenty", "thirty", "forty", "fifty", "sixty", "seventy",
   "eighty", "ninety"]

/-- Cardinal words for a number below 100, hyphenating compounds. -/
def wordsBelow100 (n : ℕ) : String :=
  if n < 20 then onesWords.getD n ""
  else if n % 10 = 0 then tensWords.getD (n / 10) ""
  else tensWords.getD (n / 10) "" ++ "-" ++ onesWords.getD (n % 10) ""

/-- Cardinal words for a number below 1000. -/
def wordsBelow1000 (n : ℕ) : String :=
  if n < 100 then wordsBelow100 n
  else if n % 100 = 0 then wordsBelow100 (n / 100) ++ " hundred"
  else wordsBelow100 (n / 100) ++ " hundred " ++ wordsBelow100 (n % 100)

/-- Cardinal words for a number below one lakh: a thousands group then a
below-1000 remainder. -/
def wordsBelowLakh (n : ℕ) : String :=
  if n < 1000 then wordsBelow1000 n
  else if n % 1000 = 0 then wordsBelow100 (n / 1000) ++ " thousand"
  else wordsBelow100 (n / 1000) ++ " thousand " ++ wordsBelow1000 (n % 1000)

/-- Cardinal words for a number below one crore: a lakh group then a
below-lakh remainder. -/
def wordsBelowCrore (n : ℕ) : String :=
  if n < 100000 then wordsBelowLakh n
  else if n % 100000 = 0 then wordsBelow100 (n / 100000) ++ " lakh"
  else wordsBelow100 (n / 100000) ++ " lakh " ++ wordsBelowLakh (n % 100000)

/-- Crore groups, peeling seven digits at a time; the fuel argument bounds
the recursion depth (four levels cover every amount below 10^28). -/
def numWordsAux : ℕ → ℕ → String
  | 0, n => wordsBelowCrore (n % 10000000)
  | fuel + 1, n =>
    if n < 10000000 then wordsBelowCrore n
    else if n % 10000000 = 0 then numWordsAux fuel (n / 10000000) ++ " crore"
    else numWordsAux fuel (n / 10000000) ++ " crore " ++
      wordsBelowCrore (n % 10000000)

/-- Modelled from the spec: the `num2words(n, lang='en_IN')` conversion of
the external `num2words` library, which is not part of this repository.
Per the spec it renders English cardinal words with Indian numbering-scale
grouping (lakh and crore past the first three digits); negative numbers
are prefixed with the word minus. -/
def num2words (z : ℤ) : String :=
  if z < 0 then "minus " ++ numWordsAux 4 z.natAbs
  else numWordsAux 4 z.toNat

/-- Python `str.title()` on a character list: the first letter of each
alphabetic run is uppercased and the following letters lowercased. -/
def titleAux : List Char → Bool → List Char
  | [], _ => []
  | c :: t, prevAlpha =>
    (if c.isAlpha then (if prevAlpha then c.toLower else c.toUpper) else c) ::
      titleAux t c.isAlpha

/-- Python `str.title()` on a string. -/
def pyTitle (s : String) : String := ⟨titleAux s.data false⟩

/-- A Python float as the words renderer receives it: an exact rational
for the finite values, plus the non-finite special values. -/
inductive PyFloat where
  | finite (q : ℚ)
  | nan
  | inf
  | ninf

/-- The rupee part computed by `amount_to_words`: `int(amount)`. -/
def rupeesOf (q : ℚ) : ℤ := ratTrunc q

/-- The paise part computed by `amount_to_words`:
`round((amount - rupees) * 100)`. -/
def paiseOf (q : ℚ) : ℤ := pyRound ((q - ratTrunc q) * 100)

/-- The try-block of `amount_to_words` in `utils/number_to_words.py`:
`int(amount)` raises on a non-finite float, modelled by `none`; on a
finite amount the words are assembled exactly as in the source. -/
def amountToWordsTry : PyFloat → Option String
  | .finite q =>
    some ((if paiseOf q > 0 then
            ("Rupees " ++ pyTitle (num2words (rupeesOf q))) ++
              (" and Paise " ++ pyTitle (num2words (paiseOf q)))
          else
            "Rupees " ++ pyTitle (num2words (rupeesOf q))) ++ " Only")
  | _ => none

/-- Python `f"{amount:.2f}"`: fixed-point rendering with two decimals for
a finite float, the literal spellings for the special values. -/
def fmtFloat2 : PyFloat → String
  | .nan => "nan"
  | .inf => "inf"
  | .ninf => "-inf"
  | .finite q =>
    (if q < 0 ∧ pyRound (q * 100) ≠ 0 then "-" else "") ++
      toString ((pyRound (q * 100)).natAbs / 100) ++ "." ++
      (if (pyRound (q * 100)).natAbs % 100 < 10 then "0" else "") ++
      toString ((pyRound (q * 100)).natAbs % 100)

/-- `amount_to_words` from `utils/number_to_words.py`: the try-block
result when word conversion succeeds, else the fixed-point fallback
string of the except-block. -/
def amount_to_words (amount : PyFloat) : String :=
  (amountToWordsTry amount).getD ("Rupees " ++ fmtFloat2 amount ++ " Only")

/-! ### Helper lemmas -/

/-- `pyRound` is the identity on integers. -/
lemma pyRound_intCast (n : ℤ) : pyRound (n : ℚ) = n := by
  simp [pyRound, Int.floor_intCast]

/-- `pyRound` evaluated at a rational known to be an integer. -/
lemma pyRound_int (x : ℚ) (n : ℤ) (h : x = n) : pyRound x = n := by
  rw [h, pyRound_intCast]

/-- `round2` is the identity on a rational known to be an integer. -/
lemma round2_int (x : ℚ) (n : ℤ) (h : x = n) : round2 x = x := by
  rw [round2, pyRound_int (x * 100) (n * 100) (by push_cast [h]; ring)]
  push_cast [h]
  ring

/-- `pyRound` of a non-negative rational is non-negative. -/
lemma pyRound_nonneg {x : ℚ} (h : 0 ≤ x) : 0 ≤ pyRound x := by
  have hf : 0 ≤ ⌊x⌋ := Int.floor_nonneg.2 h
  rw [pyRound]
  split_ifs <;> omega

/-- `round2` of a non-negative rational is non-negative. -/
lemma round2_nonneg {x : ℚ} (h : 0 ≤ x) : 0 ≤ round2 x := by
  have h1 : 0 ≤ pyRound (x * 100) := pyRound_nonneg (by nlinarith)
  rw [round2]
  apply div_nonneg _ (by norm_num)
  exact_mod_cast h1

/-- `ratTrunc` is the identity on a rational known to be an integer. -/
lemma ratTrunc_int (x : ℚ) (n : ℤ) (h : x = n) : ratTrunc x = n := by
  simp [ratTrunc, h, Int.floor_intCast, Int.ceil_intCast]

/-- The paise part of an integral amount is zero. -/
lemma paiseOf_int (x : ℚ) (n : ℤ) (h : x = n) : paiseOf x = 0 := by
  rw [paiseOf, ratTrunc_int x n h]
  exact pyRound_int _ 0 (by rw [h]; push_cast; ring)

/-- The rupee part of `(100r + p)/100` with `0 ≤ p ≤ 99` is `r`. -/
lemma rupeesOf_div100 (r p : ℤ) (hr : 0 ≤ r) (hp0 : 0 ≤ p) (hp : p ≤ 99) :
    rupeesOf ((100 * r + p : ℚ) / 100) = r := by
  have hq : (0 : ℚ) ≤ (100 * r + p : ℚ) / 100 := by
    apply div_nonneg _ (by norm_num)
    have hrq : (0 : ℚ) ≤ (r : ℚ) := by exact_mod_cast hr
    have hpq : (0 : ℚ) ≤ (p : ℚ) := by exact_mod_cast hp0
    linarith
  rw [rupeesOf, ratTrunc, if_pos hq, Int.floor_eq_iff]
  constructor
  · rw [le_div_iff₀ (by norm_num)]
    have : (0 : ℚ) ≤ (p : ℚ) := by exact_mod_cast hp0
    linarith
  · rw [div_lt_iff₀ (by norm_num)]
    have : (p : ℚ) ≤ 99 := by exact_mod_cast hp
    linarith

/-- The paise part of `(100r + p)/100` with `0 ≤ p ≤ 99` is `p`. -/
lemma paiseOf_div100 (r p : ℤ) (hr : 0 ≤ r) (hp0 : 0 ≤ p) (hp : p ≤ 99) :
    paiseOf ((100 * r + p : ℚ) / 100) = p := by
  rw [paiseOf, show ratTrunc ((100 * r + p : ℚ) / 100) =
      rupeesOf ((100 * r + p : ℚ) / 100) from rfl,
    rupeesOf_div100 r p hr hp0 hp]
  apply pyRound_int _ p
  field_simp

/-- Unfolding `amount_to_words` on a finite amount. -/
lemma amount_to_words_finite (q : ℚ) :
    amount_to_words (.finite q) =
      (if paiseOf q > 0 then
        ("Rupees " ++ pyTitle (num2words (rupeesOf q))) ++
          (" and Paise " ++ pyTitle (num2words (paiseOf q)))
      else
        "Rupees " ++ pyTitle (num2words (rupeesOf q))) ++ " Only" := rfl

/-- The data of an appended string is the appended data. -/
lemma data_append (s t : String) : (s ++ t).data = s.data ++ t.data := by
  rcases s with ⟨ls⟩
  rcases t with ⟨lt⟩
  rfl

/-- A string with a non-empty second append component is non-empty. -/
lemma append_ne_empty_of_right (s t : String) (h : t.data ≠ []) :
    s ++ t ≠ "" := by
  intro he
  apply h
  have hd := congrArg String.data he
  rw [data_append] at hd
  exact (List.append_eq_nil.mp hd).2

/-- A successful `List.lookup` pairs the key with a value in the list. -/
lemma lookup_mem {l : List (String × String)} {k v : String}
    (h : l.lookup k = some v) : (k, v) ∈ l := by
  obtain ⟨l₁, l₂, rfl, -⟩ := List.lookup_eq_some_iff.1 h
  simp

/-- The tail of the normalizer agrees with rules 2-5 of the spec cascade,
with rule 6 as the default. -/
lemma normAfterAbbrCode_eq (s : String) (m : StateMap) :
    normAfterAbbrCode s m =
      (rule2 s m <|> rule3 s m <|> rule4 s m <|> rule5 s m).getD
        (some s, none) := by
  rw [normAfterAbbrCode, rule2, rule3, rule4, rule5]
  by_cases h2 : isTwoDigits s
  · rw [if_pos h2, if_pos h2]
    cases hf : m.find? (fun p => p.2 == s) <;> simp
  · rw [if_neg h2, if_neg h2]
    cases hl : abbreviations.lookup (sUpper s) <;>
      cases hf4 : m.find? (fun p => sLower p.1 == sLower s) <;>
        cases hf5 : m.find? (fun p => strContains (sLower p.1) (sLower s)) <;>
          simp

/-- If the normalizer tail returns a name and a code, the pair is a map
entry. -/
lemma normAfterAbbrCode_mem (s : String) (m : StateMap) (n c : String)
    (h : normAfterAbbrCode s m = (some n, some c)) : (n, c) ∈ m := by
  rw [normAfterAbbrCode] at h
  split_ifs at h with h2
  · cases hf : m.find? (fun p => p.2 == s) with
    | some p =>
      rw [hf] at h
      simp only [Prod.mk.injEq, Option.some.injEq] at h
      obtain ⟨h1, h3⟩ := h
      subst h1
      subst h3
      exact List.mem_of_find?_eq_some hf
    | none =>
      rw [hf] at h
      simp at h
  · cases hl : abbreviations.lookup (sUpper s) with
    | some state_name =>
      rw [hl] at h
      simp only [Prod.mk.injEq, Option.some.injEq] at h
      obtain ⟨h1, h3⟩ := h
      subst h1
      exact lookup_mem h3
    | none =>
      rw [hl] at h
      cases hf4 : m.find? (fun p => sLower p.1 == sLower s) with
      | some p =>
        rw [hf4] at h
        simp only [Prod.mk.injEq, Option.some.injEq] at h
        obtain ⟨h1, h3⟩ := h
        subst h1
        subst h3
        exact List.mem_of_find?_eq_some hf4
      | none =>
        rw [hf4] at h
        cases hf5 : m.find? (fun p => strContains (sLower p.1) (sLower s)) with
        | some p =>
          rw [hf5] at h
          simp only [Prod.mk.injEq, Option.some.injEq] at h
          obtain ⟨h1, h3⟩ := h
          subst h1
          subst h3
          exact List.mem_of_find?_eq_some hf5
        | none =>
          rw [hf5] at h
          simp at h

/-- The inter-state reference example of the spec, used as a witness
input: Delhi to Punjab at a subtotal of 100000. -/
lemma calcTax_delhi_punjab_100000 :
    calculate_tax (some "Delhi") (some "Punjab") 100000 =
      .ok ⟨"IGST", 0, 0, 18000, 18000, 118000⟩ := by
  rw [calculate_tax]
  rw [if_neg (by decide)]
  rw [round2_int _ 18000 (by norm_num)]
  norm_num
  exact round2_int _ 118000 (by norm_num)

/-- The intra-state call at subtotal zero evaluates to the all-zero
result. -/
lemma calcTax_delhi_delhi_0 :
    calculate_tax (some "Delhi") (some "Delhi") 0 =
      .ok ⟨"SGST", 0, 0, 0, 0, 0⟩ := by
  rw [calculate_tax]
  rw [if_pos (by decide)]
  rw [round2_int _ 0 (by norm_num)]
  norm_num
  exact round2_int _ 0 (by norm_num)

/-- The words rendering of the spec's 118000 example. -/
lemma words_118000 :
    amount_to_words (.finite 118000) =
      "Rupees One Lakh Eighteen Thousand Only" := by
  have h1 : rupeesOf (118000 : ℚ) = 118000 := ratTrunc_int _ 118000 (by norm_num)
  have h2 : paiseOf (118000 : ℚ) = 0 := paiseOf_int _ 118000 (by norm_num)
  simp only [amount_to_words, amountToWordsTry, h1, h2, Option.getD_some]
  norm_num
  decide

/-- The words rendering of the docstring example 23456.78. -/
lemma words_23456_78 :
    amount_to_words (.finite (2345678/100)) =
      "Rupees Twenty-Three Thousand Four Hundred Fifty-Six and Paise Seventy-Eight Only" := by
  have he : ((2345678 : ℚ)/100) = (100 * (23456 : ℤ) + (78 : ℤ) : ℚ) / 100 := by
    push_cast
    norm_num
  have h1 : rupeesOf ((2345678 : ℚ)/100) = 23456 := by
    rw [he]
    exact rupeesOf_div100 23456 78 (by norm_num) (by norm_num) (by norm_num)
  have h2 : paiseOf ((2345678 : ℚ)/100) = 78 := by
    rw [he]
    exact paiseOf_div100 23456 78 (by norm_num) (by norm_num) (by norm_num)
  simp only [amount_to_words, amountToWordsTry, h1, h2, Option.getD_some]
  norm_num
  decide

/-! ### Claims -/

/-- C1: for every pair of state strings and every subtotal,
`calculate_tax` compares the two strings after trimming and lower-casing;
if they are equal it returns cgst = sgst = round(subtotal*0.09, 2),
igst = 0 and total_tax = cgst + sgst, otherwise cgst = sgst = 0,
igst = round(subtotal*0.18, 2) and total_tax = igst; in both cases
total_after_tax = round(subtotal + total_tax, 2), each component being
rounded to 2 decimals before the summation. -/
theorem calculate_tax_classification (s1 s2 : String) (q : ℚ) :
    calculate_tax (some s1) (some s2) q =
      if sLower (sStrip s1) = sLower (sStrip s2) then
        .ok ⟨"SGST", round2 (q * (9/100)), round2 (q * (9/100)), 0,
          round2 (q * (9/100)) + round2 (q * (9/100)),
          round2 (q + (round2 (q * (9/100)) + round2 (q * (9/100))))⟩
      else
        .ok ⟨"IGST", 0, 0, round2 (q * (18/100)), round2 (q * (18/100)),
          round2 (q + round2 (q * (18/100)))⟩ := by
  by_cases h : sLower (sStrip s1) = sLower (sStrip s2) <;>
    simp [calculate_tax, h]

/-- C2 counterexample: a negative subtotal does not make `calculate_tax`
fail; the call returns an ordinary `TaxResult` with negative components. -/
theorem calculate_tax_negative_subtotal_no_failure :
    calculate_tax (some "Delhi") (some "Punjab") (-100) =
      .ok ⟨"IGST", 0, 0, -18, -18, -118⟩ ∧
    ¬ ∃ e, calculate_tax (some "Delhi") (some "Punjab") (-100) =
      .error e := by
  have h : calculate_tax (some "Delhi") (some "Punjab") (-100) =
      .ok ⟨"IGST", 0, 0, -18, -18, -118⟩ := by
    rw [calculate_tax]
    rw [if_neg (by decide)]
    rw [round2_int _ (-18) (by norm_num)]
    norm_num
    exact round2_int _ (-118) (by norm_num)
  refine ⟨h, ?_⟩
  rintro ⟨e, he⟩
  rw [h] at he
  exact Except.noConfusion he

/-- C2 amended: `calculate_tax` raises exactly when a state string is
null/absent (the attribute access on `None` fails); the subtotal is never
validated, and every call with two present state strings returns a
`TaxResult`. -/
theorem calculate_tax_failure_iff_absent_state :
    (∀ (cs : Option String) (q : ℚ),
      calculate_tax none cs q = .error .attributeError) ∧
    (∀ (ss : String) (q : ℚ),
      calculate_tax (some ss) none q = .error .attributeError) ∧
    (∀ (ss cs : String) (q : ℚ),
      ∃ r, calculate_tax (some ss) (some cs) q = .ok r) := by
  refine ⟨fun cs q => rfl, fun ss q => rfl, fun ss cs q => ?_⟩
  by_cases h : sLower (sStrip ss) = sLower (sStrip cs)
  · refine ⟨⟨"SGST", round2 (q * (9/100)), round2 (q * (9/100)), 0,
      round2 (q * (9/100)) + round2 (q * (9/100)),
      round2 (q + (round2 (q * (9/100)) + round2 (q * (9/100))))⟩, ?_⟩
    simp [calculate_tax, h]
  · refine ⟨⟨"IGST", 0, 0, round2 (q * (18/100)), round2 (q * (18/100)),
      round2 (q + round2 (q * (18/100)))⟩, ?_⟩
    simp [calculate_tax, h]

/-- C3 counterexample: at subtotal 0 both component pairs of the returned
result are zero, so it is not the case that exactly one of the pairs
{cgst+sgst} and {igst} is non-zero. -/
theorem calculate_tax_zero_refutes_exactly_one :
    ¬ (∀ (s1 s2 : String) (q : ℚ), 0 ≤ q → ∀ r : TaxResult,
        calculate_tax (some s1) (some s2) q = .ok r →
        ((r.cgst + r.sgst ≠ 0 ∧ r.igst = 0) ∨
         (r.igst ≠ 0 ∧ r.cgst + r.sgst = 0))) := by
  intro hclaim
  have h := hclaim "Delhi" "Delhi" 0 le_rfl ⟨"SGST", 0, 0, 0, 0, 0⟩
    calcTax_delhi_delhi_0
  simp at h

/-- C3 amended: every result of `calculate_tax` on a non-negative subtotal
has non-negative cgst, sgst and igst, and at most one of the component
pairs {cgst+sgst} and {igst} is non-zero: the pair not selected by the
classification is always zero (at subtotal 0 both pairs are zero). -/
theorem calculate_tax_component_signs (s1 s2 : String) (q : ℚ) (hq : 0 ≤ q)
    (r : TaxResult) (hr : calculate_tax (some s1) (some s2) q = .ok r) :
    (0 ≤ r.cgst ∧ 0 ≤ r.sgst ∧ 0 ≤ r.igst) ∧
    (r.igst = 0 ∨ (r.cgst = 0 ∧ r.sgst = 0)) := by
  rw [calculate_tax] at hr
  split_ifs at hr with h
  · simp only [Except.ok.injEq] at hr
    subst hr
    have hc : 0 ≤ round2 (q * (9/100)) :=
      round2_nonneg (mul_nonneg hq (by norm_num))
    exact ⟨⟨hc, hc, le_refl 0⟩, Or.inl rfl⟩
  · simp only [Except.ok.injEq] at hr
    subst hr
    have hi : 0 ≤ round2 (q * (18/100)) :=
      round2_nonneg (mul_nonneg hq (by norm_num))
    exact ⟨⟨le_refl 0, le_refl 0, hi⟩, Or.inr ⟨rfl, rfl⟩⟩

/-- C3 witness: the component-sign invariant instantiated at the
inter-state reference example. -/
theorem calculate_tax_component_signs_witness :
    (0 ≤ (0 : ℚ) ∧ 0 ≤ (0 : ℚ) ∧ 0 ≤ (18000 : ℚ)) ∧
    ((18000 : ℚ) = 0 ∨ ((0 : ℚ) = 0 ∧ (0 : ℚ) = 0)) :=
  calculate_tax_component_signs "Delhi" "Punjab" 100000 (by norm_num)
    ⟨"IGST", 0, 0, 18000, 18000, 118000⟩ calcTax_delhi_punjab_100000

/-- C4: for every non-empty input and reference map,
`normalize_state_name` equals the spec's six-rule priority cascade applied
to the trimmed input, and the three worked examples resolve as the spec
states. -/
theorem normalize_state_name_priority_rules :
    (∀ (s0 : String) (m : StateMap), s0 ≠ "" →
        normalize_state_name (some s0) m = resolve_spec (sStrip s0) m) ∧
    normalize_state_name (some "UP-09") demoMap =
      (some "Uttar Pradesh", some "09") ∧
    normalize_state_name (some "09") demoMap =
      (some "Uttar Pradesh", some "09") ∧
    normalize_state_name (some "Uttar") demoMap =
      (some "Uttar Pradesh", some "09") := by
  refine ⟨fun s0 m h0 => ?_, by decide, by decide, by decide⟩
  simp only [normalize_state_name, if_neg h0]
  rw [resolve_spec, rule1]
  cases hm : matchAbbrCode (sUpper (sStrip s0)) with
  | none =>
    rw [normAfterAbbrCode_eq]
    simp
  | some pr =>
    obtain ⟨abbr, sfx⟩ := pr
    cases hl : abbreviations.lookup abbr with
    | some state_name => simp [hl]
    | none =>
      rw [normAfterAbbrCode_eq]
      simp [hl]

/-- C4 witness: the rule-cascade equality instantiated at a concrete
padded lowercase input over the demo map. -/
theorem normalize_state_name_priority_rules_witness :
    normalize_state_name (some " up-09 ") demoMap =
      resolve_spec (sStrip " up-09 ") demoMap :=
  normalize_state_name_priority_rules.1 " up-09 " demoMap (by decide)

/-- C5 counterexample: a whitespace-only input is not mapped to two absent
outputs; after trimming it becomes the empty string, which
substring-matches the first entry of any non-empty reference map. -/
theorem normalize_state_name_whitespace_counterexample :
    normalize_state_name (some "   ") demoMap = (some "Delhi", some "07") ∧
    normalize_state_name (some "   ") demoMap ≠ (none, none) := by
  constructor <;> decide

/-- C5 amended: `normalize_state_name` returns both outputs absent for an
absent input and for the genuinely empty string (the `if not state_input`
guard fires before trimming); whitespace-only input instead falls through
the matchers. -/
theorem normalize_state_name_absent_input (m : StateMap) :
    normalize_state_name none m = (none, none) ∧
    normalize_state_name (some "") m = (none, none) :=
  ⟨rfl, rfl⟩

/-- C6 counterexample: a bare two-digit code absent from the reference map
is passed through as the code with an absent name, so a present code need
not correspond to a map entry for the returned name. -/
theorem normalize_state_name_unresolved_code_counterexample :
    ¬ (∀ (si : Option String) (m : StateMap) (c : String),
        (normalize_state_name si m).2 = some c →
        ∃ n, (normalize_state_name si m).1 = some n ∧ (n, c) ∈ m) := by
  intro hclaim
  obtain ⟨n, hn, -⟩ := hclaim (some "99") demoMap "99" (by decide)
  rw [show (normalize_state_name (some "99") demoMap).1 = none from by decide]
    at hn
  exact Option.noConfusion hn

/-- C6 amended: whenever `normalize_state_name` returns both a canonical
name and a code, the pair is an entry of the reference map; only the
unresolved bare-2-digit passthrough yields a code without a name. -/
theorem normalize_state_name_code_matches_map (si : Option String)
    (m : StateMap) (n c : String)
    (h : normalize_state_name si m = (some n, some c)) : (n, c) ∈ m := by
  cases si with
  | none => simp [normalize_state_name] at h
  | some s0 =>
    simp only [normalize_state_name] at h
    split_ifs at h with h0
    · simp at h
    · split at h
      · split at h
        · simp only [Prod.mk.injEq, Option.some.injEq] at h
          obtain ⟨h1, h3⟩ := h
          subst h1
          exact lookup_mem h3
        · exact normAfterAbbrCode_mem _ _ _ _ h
      · exact normAfterAbbrCode_mem _ _ _ _ h

/-- C6 witness: the resolved pair of the combined-pattern example is an
entry of the demo map. -/
theorem normalize_state_name_code_matches_map_witness :
    ("Uttar Pradesh", "09") ∈ demoMap :=
  normalize_state_name_code_matches_map (some "UP-09") demoMap
    "Uttar Pradesh" "09" (by decide)

/-- C7: on every finite non-negative amount the rendered string is
"Rupees " followed by the Title-Case rupee words, an " and Paise " clause
exactly when paise > 0, and a final " Only"; the zero amount renders as
"Rupees Zero Only" and the 118000 amount has no "Paise" clause and ends
with "Only". -/
theorem amount_to_words_rendering (q : ℚ) (hq : 0 ≤ q) :
    amount_to_words (.finite q) =
      (if paiseOf q > 0 then
        ("Rupees " ++ pyTitle (num2words (rupeesOf q))) ++
          (" and Paise " ++ pyTitle (num2words (paiseOf q)))
      else
        "Rupees " ++ pyTitle (num2words (rupeesOf q))) ++ " Only" ∧
    amount_to_words (.finite 0) = "Rupees Zero Only" ∧
    strContains (amount_to_words (.finite 118000)) "Paise" = false ∧
    "Only".data.isSuffixOf (amount_to_words (.finite 118000)).data = true := by
  refine ⟨amount_to_words_finite q, ?_, ?_, ?_⟩
  · have h1 : rupeesOf (0 : ℚ) = 0 := ratTrunc_int _ 0 (by norm_num)
    have h2 : paiseOf (0 : ℚ) = 0 := paiseOf_int _ 0 (by norm_num)
    simp only [amount_to_words, amountToWordsTry, h1, h2, Option.getD_some]
    norm_num
    decide
  · rw [words_118000]
    decide
  · rw [words_118000]
    decide

/-- C7 witness: the rendering contract instantiated at the zero amount. -/
theorem amount_to_words_rendering_witness :
    amount_to_words (.finite 0) = "Rupees Zero Only" :=
  (amount_to_words_rendering 0 le_rfl).2.1

/-- C8: for every non-negative amount with at most two decimal places the
decomposition of `amount_to_words` gives the integer rupee part as the
floor of the amount and an integer paise part between 0 and 99. -/
theorem amount_to_words_decomposition (q : ℚ) (h0 : 0 ≤ q)
    (h2 : ∃ m : ℤ, q = m / 100) :
    rupeesOf q = ⌊q⌋ ∧ 0 ≤ paiseOf q ∧ paiseOf q ≤ 99 := by
  obtain ⟨m, rfl⟩ := h2
  have hm : (0 : ℚ) ≤ (m : ℚ) := by
    have := (le_div_iff₀ (show (0:ℚ) < 100 by norm_num)).1 h0
    linarith
  refine ⟨by rw [rupeesOf, ratTrunc, if_pos h0], ?_, ?_⟩
  all_goals
    have hfl : ((⌊(m : ℚ)/100⌋ : ℤ) : ℚ) ≤ (m : ℚ)/100 := Int.floor_le _
    have hfu : (m : ℚ)/100 < (⌊(m : ℚ)/100⌋ : ℤ) + 1 := Int.lt_floor_add_one _
    have hfl2 : (⌊(m : ℚ)/100⌋ : ℤ) * 100 ≤ m := by
      have := (le_div_iff₀ (show (0:ℚ) < 100 by norm_num)).1 hfl
      exact_mod_cast this
    have hfu2 : m < ((⌊(m : ℚ)/100⌋ : ℤ) + 1) * 100 := by
      have := (div_lt_iff₀ (show (0:ℚ) < 100 by norm_num)).1 hfu
      exact_mod_cast this
    have hp : paiseOf ((m : ℚ)/100) = m - 100 * ⌊(m : ℚ)/100⌋ := by
      rw [paiseOf, ratTrunc, if_pos h0]
      apply pyRound_int
      push_cast
      ring
    rw [hp]
    omega

/-- C8 witness: the decomposition bounds instantiated at 23456.78. -/
theorem amount_to_words_decomposition_witness :
    rupeesOf (2345678/100 : ℚ) = ⌊(2345678/100 : ℚ)⌋ ∧
    0 ≤ paiseOf (2345678/100 : ℚ) ∧ paiseOf (2345678/100 : ℚ) ≤ 99 :=
  amount_to_words_decomposition (2345678/100) (by norm_num)
    ⟨2345678, by norm_num⟩

/-- C9: `amount_to_words` is total and never returns a blank string; when
the word conversion fails (the non-finite inputs, on which `int()`
raises), it returns the fallback string of "Rupees ", the amount formatted
to two decimals, and " Only". -/
theorem amount_to_words_total_with_fallback (a : PyFloat) :
    amount_to_words a ≠ "" ∧
    (amountToWordsTry a = none →
      amount_to_words a = "Rupees " ++ fmtFloat2 a ++ " Only") := by
  constructor
  · cases a with
    | finite q =>
      rw [amount_to_words_finite]
      exact append_ne_empty_of_right _ " Only" (by decide)
    | nan => decide
    | inf => decide
    | ninf => decide
  · intro h
    cases a with
    | finite q => simp [amountToWordsTry] at h
    | nan => rfl
    | inf => rfl
    | ninf => rfl

/-- C9 witness: the fallback contract instantiated at the nan input, where
word conversion fails. -/
theorem amount_to_words_total_with_fallback_witness :
    amount_to_words .nan ≠ "" ∧
    amount_to_words .nan = "Rupees " ++ fmtFloat2 .nan ++ " Only" :=
  ⟨(amount_to_words_total_with_fallback .nan).1,
   (amount_to_words_total_with_fallback .nan).2 rfl⟩

/-- C10: at subtotal 0 every monetary component of the result is zero
while the tax type still reflects the comparison of the trimmed
lower-cased state strings. -/
theorem calculate_tax_zero_subtotal (s1 s2 : String) :
    calculate_tax (some s1) (some s2) 0 =
      .ok ⟨if sLower (sStrip s1) = sLower (sStrip s2) then "SGST" else "IGST",
        0, 0, 0, 0, 0⟩ := by
  have hz : round2 (0:ℚ) = 0 := round2_int 0 0 (by norm_num)
  by_cases h : sLower (sStrip s1) = sLower (sStrip s2) <;>
    simp [calculate_tax, h, hz]
